import Mathlib

/-!
Shallow embedding of `src/index.js` of the `publish-nuget` GitHub action.

The script is a linear orchestration: a constructor registers the NuGet
source with the dotnet toolchain and classifies the registry URL, `run`
resolves a version string (static input or regex extraction from a file),
`_checkForUpdate` queries the registry over HTTP, and `_pushPackage`
builds, packs, pushes and optionally tags.

Pure string manipulation (JavaScript `String.prototype.replace` with a
string pattern, `split`, `path.basename`) is embedded exactly; effectful
steps (logging, subprocess spawning, file-system access, the HTTP
response) are embedded as an event trace over an explicit environment.
-/

namespace PublishNuget

/-- Find the first occurrence of `pat` in `s`: returns the part strictly
before the match and the part strictly after it.  Mirrors the search
performed by JavaScript `String.prototype.indexOf` / `replace`. -/
def findSplit (pat : List Char) : List Char → Option (List Char × List Char)
  | [] => if pat.isPrefixOf ([] : List Char) then some ([], []) else none
  | c :: cs =>
    if pat.isPrefixOf (c :: cs) then some ([], (c :: cs).drop pat.length)
    else (findSplit pat cs).map fun p => (c :: p.1, p.2)

/-- JavaScript `String.prototype.startsWith`, structurally on the
character list. -/
def strStartsWith (s pre : String) : Bool := pre.data.isPrefixOf s.data

/-- JavaScript `String.prototype.endsWith` (and the `$`-anchored regex
tests of lines 112 and 119), structurally on the character list. -/
def strEndsWith (s suf : String) : Bool := suf.data.reverse.isPrefixOf s.data.reverse

/-- JavaScript `String.prototype.toLowerCase` (ASCII range, which is all
the URLs here use). -/
def strToLower (s : String) : String := ⟨s.data.map Char.toLower⟩

/-- JavaScript `Array.prototype.join` with a string separator, as used
by `packages.join(', ')` (line 120) and the stringification of the
`versions` array (line 193). -/
def strJoin (sep : String) (xs : List String) : String :=
  ⟨List.intercalate sep.data (xs.map String.data)⟩

/-- JavaScript `String.prototype.includes`, as used by
`existingSources.includes(this.nugetSource)` (line 32). -/
def strIncludes (s sub : String) : Bool := (findSplit sub.data s.data).isSome

/-- The `GetSubstitution` step of JavaScript `String.prototype.replace`
with a string replacement: `$$`, `$&`, a dollar before a backquote and
a dollar before a quote are escape sequences; with a string pattern there
are no capture groups, so every other character is literal. -/
def getSubstitution (matched before after : List Char) : List Char → List Char
  | [] => []
  | c :: rest =>
    if c = '$' then
      match rest with
      | [] => ['$']
      | d :: rest2 =>
        if d = '$' then '$' :: getSubstitution matched before after rest2
        else if d = '&' then matched ++ getSubstitution matched before after rest2
        else if d = Char.ofNat 96 then before ++ getSubstitution matched before after rest2
        else if d = Char.ofNat 39 then after ++ getSubstitution matched before after rest2
        else '$' :: d :: getSubstitution matched before after rest2
    else c :: getSubstitution matched before after rest

/-- JavaScript `s.replace(pat, repl)` with a string pattern `pat`:
replaces the first occurrence only, interpreting dollar escapes in
`repl`.  Used for the tag template (line 86), the symbol-package file
name (line 136) and the found-message URL (line 195). -/
def jsReplaceFirst (s pat repl : String) : String :=
  match findSplit pat.data s.data with
  | none => s
  | some p => ⟨p.1 ++ getSubstitution pat.data p.1 p.2 repl.data ++ p.2⟩

/-- JavaScript `String.prototype.split` with a single-character
separator, as used by `cmd.split(' ')` (line 75) and
`basename.split('.')` (line 157). -/
def splitOnChar (c : Char) : List Char → List (List Char)
  | [] => [[]]
  | x :: xs =>
    let r := splitOnChar c xs
    if x = c then [] :: r
    else
      match r with
      | [] => [[x]]
      | y :: ys => (x :: y) :: ys

/-- JavaScript `Array.prototype.join` with a single-character separator,
as used by `.join('.')` (line 157). -/
def joinChar (c : Char) : List (List Char) → List Char
  | [] => []
  | [x] => x
  | x :: xs => x ++ c :: joinChar c xs

/-- Node `path.basename` (POSIX): trailing separators are ignored, the
portion after the last separator is returned. -/
def pathBasename (p : String) : String :=
  let trimmed := (p.data.reverse.dropWhile (fun c => c == '/')).reverse
  if trimmed.isEmpty then (if p.data.isEmpty then "" else "/")
  else ⟨(trimmed.reverse.takeWhile (fun c => c != '/')).reverse⟩

/-- Line 157: `path.basename(this.projectFile).split('.').slice(0, -1).join('.')`. -/
def defaultPackageName (projectFile : String) : String :=
  ⟨joinChar '.' ((splitOnChar '.' (pathBasename projectFile).data).dropLast)⟩

/-- Lines 156–158: `if (!this.packageName) this.packageName = ...` —
an empty configured name (JavaScript falsy) is replaced by the derived
default. -/
def resolvedPackageName (configured projectFile : String) : String :=
  if configured = "" then defaultPackageName projectFile else configured

/-- Line 75: `cmd.split(' ')` — the argument vector a command string is
turned into before being handed to `spawnSync`. -/
def commandTokens (cmd : String) : List String :=
  (splitOnChar ' ' cmd.data).map fun l => ⟨l⟩

/-- Registry classification (`this.sourceType`, lines 34–39). -/
inductive SourceType where
  | GPR
  | NuGet
deriving DecidableEq, Repr

/-- Lines 25–29: the display name of the source. -/
def sourceNameOf (nugetSource : String) : String :=
  if strStartsWith nugetSource "https://api.nuget.org" then "nuget.org" else nugetSource

/-- Lines 31–45 of the constructor: `this.sourceType` is assigned only
inside the `if (existingSources.includes(this.nugetSource) === false)`
branch; when the URL is already listed the field stays `undefined`
(`none`). -/
def sourceTypeOf (existingSources nugetSource : String) : Option SourceType :=
  if strIncludes existingSources nugetSource = false then
    if strStartsWith nugetSource "https://nuget.pkg.github.com" then some SourceType.GPR
    else some SourceType.NuGet
  else none

/-- Lines 33–40: the `dotnet nuget add source` command built when the
registry is not yet listed (GPR embeds user and key, NuGet does not). -/
def addSourceCmdOf (nugetSource sourceName githubUser nugetKey : String) : String :=
  if strStartsWith nugetSource "https://nuget.pkg.github.com" then
    "dotnet nuget add source " ++ nugetSource ++ "/index.json --name=" ++ sourceName ++
      " -u=" ++ githubUser ++ " -p=" ++ nugetKey ++ " --store-password-in-clear-text"
  else
    "dotnet nuget add source " ++ nugetSource ++ "/v3/index.json --name=" ++ sourceName

/-- The fields of the `Action` object after the constructor ran:
the raw inputs plus the derived `sourceName` and `sourceType`.
`version` holds `VERSION_STATIC` until `run` overwrites it with the
resolved version. -/
structure ActionState where
  projectFile : String
  packageName : String
  versionFile : String
  version : String
  tagCommit : Bool
  tagFormat : String
  nugetKey : String
  nugetSource : String
  includeSymbols : Bool
  errorContinue : Bool
  noBuild : Bool
  signingCert : String
  githubUser : String
  sourceName : String
  sourceType : Option SourceType
deriving Repr

/-- Observable steps of a run: CI log lines, subprocess spawns
(`_executeCommand` both logs and spawns — one `exec` event stands for
the pair), file deletions, structured `::set-output` writes, the HTTP
GET, and the call of `_pushPackage` from the existence checker. -/
inductive Event where
  | info (msg : String)
  | infoFound (msg : String)
  | debug (msg : String)
  | warning (msg : String)
  | errorLog (msg : String)
  | exec (cmd : String)
  | unlink (fn : String)
  | setOutput (key value : String)
  | httpGet (url : String)
  | publishInvoke (version name : String)
deriving DecidableEq, Repr

/-- Whether the run completed or an `Error` was thrown. -/
inductive Outcome where
  | ok
  | thrown (msg : String)
deriving DecidableEq, Repr

/-- Lines 58–61: `_printErrorAndExit` — log an error, then throw. -/
def printErrorAndExit (msg : String) : List Event × Outcome :=
  ([Event.errorLog ("😭 " ++ msg)], Outcome.thrown msg)

/-- Lines 63–70: `_printError` — the continue-on-error policy switch.
(Defined in the source but never called on any path of this version.) -/
def printError (errorContinue : Bool) (msg : String) : List Event × Outcome :=
  if errorContinue then ([Event.warning ("😢 " ++ msg)], Outcome.ok)
  else ([Event.errorLog ("😭 " ++ msg)], Outcome.thrown msg)

/-- Sequencing in the presence of a thrown `Error`: the continuation
runs only when the first part completed. -/
def seqRun (r : List Event × Outcome) (k : Unit → List Event × Outcome) :
    List Event × Outcome :=
  match r.2 with
  | Outcome.ok => (r.1 ++ (k ()).1, (k ()).2)
  | Outcome.thrown m => (r.1, Outcome.thrown m)

/-- Lines 96–100: `_generatePackArgs` (note the duplicated
`--no-build -c Release` of the source and the interpolation of
`this.version`). -/
def generatePackArgs (a : ActionState) : String :=
  "--no-build -c Release -p:PackageVersion=" ++ a.version ++ " " ++
    (if a.includeSymbols then "--include-symbols -p:SymbolPackageFormat=snupkg" else "") ++
    " --no-build -c Release"

/-- Lines 127–130: the push command.  The template has no space between
the key ternary and `--skip-duplicate`:
`` `... -s ${sourceName} ${sourceType !== 'GPR' ? `-k ${key}` : ''}--skip-duplicate${!includeSymbols ? ' -n' : ''}` ``. -/
def pushCmdOf (a : ActionState) (nupkg : String) : String :=
  "dotnet nuget push " ++ nupkg ++ " -s " ++ a.sourceName ++ " " ++
    (if a.sourceType ≠ some SourceType.GPR then "-k " ++ a.nugetKey else "") ++
    "--skip-duplicate" ++ (if !a.includeSymbols then " -n" else "")

/-- Line 134: `/error/.test(pushOutput)` then
`/error.*/.exec(pushOutput)[0]` — the first occurrence of the literal
substring `error`, extended to the end of its line (`.` does not cross
a newline). -/
def jsErrorScan (s : String) : Option String :=
  match findSplit "error".data s.data with
  | none => none
  | some p => some ⟨"error".data ++ p.2.takeWhile (fun c => c != Char.ofNat 10)⟩

/-- Line 86: `this.tagFormat.replace('*', version)`. -/
def tagOf (tagFormat version : String) : String :=
  jsReplaceFirst tagFormat "*" version

/-- Lines 85–94: `_tagCommit` — compute the tag, create and push it,
emit the `VERSION` output. -/
def tagCommitRun (a : ActionState) (version : String) : List Event :=
  let tag := tagOf a.tagFormat version
  [Event.info ("✨ creating new tag " ++ tag),
   Event.exec ("git tag " ++ tag),
   Event.exec ("git push origin " ++ tag),
   Event.setOutput "VERSION" tag]

/-- Environment of `_pushPackage`: the working-directory listing before
artifact deletion, the listing after `dotnet pack`, the captured stdout
of each push command, existence of symbol files, and `path.resolve`. -/
structure PushEnv where
  dirListing : List String
  packedListing : List String
  pushStdout : String → String
  symbolExists : String → Bool
  resolvePath : String → String

/-- Lines 124–150: the body of the `forEach` over `.nupkg` artifacts:
optional signing, push, output scan, structured outputs, symbol-file
outputs or warning. -/
def pushOne (a : ActionState) (env : PushEnv) (nupkg : String) :
    List Event × Outcome :=
  let signEvs :=
    if a.signingCert ≠ "" then
      [Event.exec ("dotnet nuget sign " ++ nupkg ++ " -CertificatePath " ++ a.signingCert ++
        " -Timestamper http://timestamp.digicert.com")]
    else []
  let cmd := pushCmdOf a nupkg
  let pushOutput := env.pushStdout nupkg
  let evs := signEvs ++ [Event.exec cmd, Event.info pushOutput]
  match jsErrorScan pushOutput with
  | some m => (evs ++ (printErrorAndExit m).1, (printErrorAndExit m).2)
  | none =>
    let symbolsFilename := jsReplaceFirst nupkg ".nupkg" ".snupkg"
    let fullpathsymbolsFilename := env.resolvePath symbolsFilename
    let outEvs := [Event.setOutput "PACKAGE_NAME" nupkg,
                   Event.setOutput "PACKAGE_PATH" (env.resolvePath nupkg)]
    let symEvs :=
      if symbolsFilename ≠ "" then
        if env.symbolExists fullpathsymbolsFilename then
          [Event.setOutput "SYMBOLS_PACKAGE_NAME" symbolsFilename,
           Event.setOutput "SYMBOLS_PACKAGE_PATH" fullpathsymbolsFilename]
        else
          [Event.warning ("supkg [" ++ symbolsFilename ++ "] is not existed. path:[" ++
            fullpathsymbolsFilename ++ "]")]
      else []
    (evs ++ outEvs ++ symEvs, Outcome.ok)

/-- The `forEach` of lines 122–150: a thrown `Error` aborts the
remaining iterations. -/
def pushLoop (a : ActionState) (env : PushEnv) : List String → List Event × Outcome
  | [] => ([], Outcome.ok)
  | nupkg :: rest => seqRun (pushOne a env nupkg) fun _ => pushLoop a env rest

/-- Lines 101–153: `_pushPackage(version, name)`. -/
def pushPackage (a : ActionState) (env : PushEnv) (version name : String) :
    List Event × Outcome :=
  let ev0 := [Event.info ("✨ found new version (" ++ version ++ ") of " ++ name)]
  if a.sourceType = some SourceType.NuGet ∧ a.nugetKey = "" then
    (ev0 ++ [Event.warning "😢 NUGET_KEY not given"], Outcome.ok)
  else
    let ev1 := ev0 ++ [Event.info ("NuGet Source: " ++ a.nugetSource)]
    -- lines 111–113: `/\.s?nupkg$/` deletion of stale artifacts
    let delEvs := (env.dirListing.filter fun fn =>
        strEndsWith fn ".nupkg" || strEndsWith fn ".snupkg").map Event.unlink
    let buildEvs :=
      if !a.noBuild then
        [Event.exec ("dotnet build -c Release " ++ a.projectFile ++ " /p:Version=" ++ a.version)]
      else []
    let packEv := [Event.exec ("dotnet pack " ++ generatePackArgs a ++ " " ++ a.projectFile ++ " -o .")]
    let packages := env.packedListing.filter fun fn => strEndsWith fn "nupkg"
    let genEv := [Event.info ("Generated Package(s): " ++ strJoin ", " packages)]
    let loopRes := pushLoop a env (packages.filter fun p => strEndsWith p ".nupkg")
    let tailRes := seqRun loopRes fun _ =>
      (if a.tagCommit then tagCommitRun a version else [], Outcome.ok)
    (ev1 ++ delEvs ++ buildEvs ++ packEv ++ genEv ++ tailRes.1, tailRes.2)

/-- The existence-check HTTP response, as consumed by the callback of
lines 185–206: a 200 body already parsed to its `versions` list, a 404,
any other status, or a transport-level error. -/
inductive CheckResponse where
  | status200 (versions : List String)
  | status404
  | other (code : Nat) (statusMessage : String)
  | transportError (msg : String)
deriving Repr

/-- Environment of `_checkForUpdate`. -/
structure CheckEnv where
  response : CheckResponse
  push : PushEnv

/-- Lines 162–181: the existence-check URL (both shapes are
lower-cased). -/
def versionCheckUrlOf (a : ActionState) (name : String) : String :=
  if a.sourceType = some SourceType.GPR then
    strToLower (a.nugetSource ++ "/download/" ++ name ++ "/index.json")
  else
    strToLower (a.nugetSource ++ "/v3-flatcontainer/" ++ name ++ "/index.json")

/-- Line 195: the "found" log message
(`this.nugetSource.replace('api.', '')`). -/
def foundMessage (a : ActionState) (name : String) : String :=
  "Found the version: " ++ jsReplaceFirst a.nugetSource "api." "" ++ "/packages/" ++
    name ++ "/" ++ a.version

/-- Lines 160–182: the logs emitted by `_checkForUpdate` before the
HTTP GET, together with the GET itself. -/
def checkPreEvents (a : ActionState) (name url : String) : List Event :=
  [Event.info ("Package Name: " ++ name)] ++
    (if a.sourceType = some SourceType.GPR then
      [Event.info "This is GPR, changing url for versioning..."]
     else []) ++
    [Event.info ("Url of checking Version: " ++ url), Event.httpGet url]

/-- Lines 155–207: `_checkForUpdate`.  `a.version` is the resolved
version (the caller `run` already overwrote the field). -/
def checkForUpdate (a : ActionState) (env : CheckEnv) : List Event × Outcome :=
  let name := resolvedPackageName a.packageName a.projectFile
  let url := versionCheckUrlOf a name
  let pre := checkPreEvents a name url
  match env.response with
  | CheckResponse.status200 versions =>
    -- line 192: `existingVersions.versions.indexOf(this.version) < 0`
    if a.version ∉ versions then
      let r := pushPackage a env.push a.version name
      (pre ++ [Event.info ("Current version " ++ a.version ++ " is not found in NuGet. Versions:" ++
          strJoin "," versions),
        Event.publishInvoke a.version name] ++ r.1, r.2)
    else
      (pre ++ [Event.infoFound (foundMessage a name)], Outcome.ok)
  | CheckResponse.status404 =>
    let r := pushPackage a env.push a.version name
    (pre ++ [Event.warning ("Url '" ++ url ++ "' is not available now or '" ++ name ++
        "' was never uploaded on NuGet"),
      Event.publishInvoke a.version name] ++ r.1, r.2)
  | CheckResponse.other code statusMessage =>
    let r := printErrorAndExit ("error: " ++ toString code ++ ": " ++ statusMessage)
    (pre ++ r.1, r.2)
  | CheckResponse.transportError m =>
    let r := printErrorAndExit ("error: " ++ m)
    (pre ++ r.1, r.2)

/-- JavaScript member access `groups[i]` on a regex match object: out of
range or an unmatched group is `undefined` (`none`). -/
def jsIndex (g : List (Option String)) (i : Nat) : Option String :=
  (g.get? i).join

/-- Template interpolation of a possibly-`undefined` value. -/
def jsStr : Option String → String
  | some s => s
  | none => "undefined"

/-- Environment of `run`: the file system, the compiled
`VERSION_REGEX`'s matcher (`exec`: `none` when there is no match,
otherwise the list of groups, group 0 the whole match), the regex's
display form, and the existence-check environment. -/
structure RunEnv where
  fileExists : String → Bool
  readFile : String → String
  regexExec : String → Option (List (Option String))
  regexShown : String
  check : CheckEnv

/-- Lines 209–234: `run()`. -/
def run (a : ActionState) (env : RunEnv) : List Event × Outcome :=
  -- line 55: `_validateInputs`
  let v0 := if a.version ≠ "" ∧ a.versionFile ≠ "" then
      [Event.info "You provided 'version', extract-* keys are being ignored"]
    else []
  if a.projectFile = "" ∨ env.fileExists a.projectFile = false then
    let r := printErrorAndExit ("Project file '" ++ a.projectFile ++ "' not found")
    (v0 ++ r.1, r.2)
  else
    let ev1 := v0 ++ [Event.info ("Project Filepath: " ++ a.projectFile),
      Event.debug ("Version (pre): '" ++ a.version ++ "'")]
    if a.version = "" then
      if a.versionFile ≠ a.projectFile ∧ env.fileExists a.versionFile = false then
        let r := printErrorAndExit "version file not found"
        (ev1 ++ r.1, r.2)
      else
        let ev2 := ev1 ++ [Event.info ("Version Filepath: " ++ a.versionFile),
          Event.info ("Version Regex: " ++ env.regexShown)]
        match env.regexExec (env.readFile a.versionFile) with
        | none =>
          let r := printErrorAndExit "unable to extract version info!"
          (ev2 ++ r.1, r.2)
        | some parsed =>
          let a2 := { a with version := jsStr (jsIndex parsed 1) }
          let r := checkForUpdate a2 env.check
          (ev2 ++ [Event.info ("Version: " ++ a2.version)] ++ r.1, r.2)
    else
      let r := checkForUpdate a env.check
      (ev1 ++ [Event.info ("Version: " ++ a.version)] ++ r.1, r.2)

/-- Marker of the `_pushPackage` call site inside `_checkForUpdate`. -/
def isPublishInvoke : Event → Bool
  | Event.publishInvoke _ _ => true
  | _ => false

/-- Marker of the "found" log (line 195). -/
def isInfoFound : Event → Bool
  | Event.infoFound _ => true
  | _ => false

/-- How many times the existence checker handed control to the
Publisher. -/
def publishCount (evs : List Event) : Nat :=
  evs.countP fun e => isPublishInvoke e

/-- Whether the "found" message was logged. -/
def foundLogged (evs : List Event) : Bool :=
  evs.any isInfoFound

/-- Network or build/toolchain activity: the HTTP GET or any spawned
command. -/
def isNetOrBuild : Event → Bool
  | Event.httpGet _ => true
  | Event.exec _ => true
  | _ => false

/-- Events that are neither the Publisher-invocation marker nor the
"found" log. -/
def nonMarker (e : Event) : Prop :=
  isPublishInvoke e = false ∧ isInfoFound e = false

/-- The non-marker check as a boolean, for mechanical evaluation. -/
def nonMarkerB (e : Event) : Bool := !isPublishInvoke e && !isInfoFound e

lemma nonMarker_of_nonMarkerB {e : Event} (h : nonMarkerB e = true) : nonMarker e := by
  simpa only [nonMarkerB, Bool.and_eq_true, Bool.not_eq_true'] using h

lemma nonMarkerB_pushOne (a : ActionState) (env : PushEnv) (p : String) :
    ((pushOne a env p).1.all nonMarkerB) = true := by
  unfold pushOne
  rcases hscan : jsErrorScan (env.pushStdout p) with _ | m <;>
    simp only [hscan] <;> split_ifs <;>
    simp [printErrorAndExit, nonMarkerB, isPublishInvoke, isInfoFound]

lemma all_seqRun {r : List Event × Outcome} {k : Unit → List Event × Outcome}
    {q : Event → Bool} (h1 : r.1.all q = true) (h2 : (k ()).1.all q = true) :
    ((seqRun r k).1.all q) = true := by
  unfold seqRun
  split <;> simp [List.all_append, h1, h2]

lemma nonMarkerB_pushLoop (a : ActionState) (env : PushEnv) (ps : List String) :
    ((pushLoop a env ps).1.all nonMarkerB) = true := by
  induction ps with
  | nil => simp [pushLoop]
  | cons p rest ih => exact all_seqRun (nonMarkerB_pushOne a env p) ih

lemma nonMarkerB_tagCommitRun (a : ActionState) (v : String) :
    ((tagCommitRun a v).all nonMarkerB) = true := by
  simp [tagCommitRun, nonMarkerB, isPublishInvoke, isInfoFound]

lemma nonMarkerB_pushPackage (a : ActionState) (env : PushEnv) (v n : String) :
    ((pushPackage a env v n).1.all nonMarkerB) = true := by
  unfold pushPackage
  dsimp only
  split_ifs with hsc
  · simp [nonMarkerB, isPublishInvoke, isInfoFound]
  all_goals
    simp only [List.all_append, Bool.and_eq_true]
    and_intros <;>
      first
        | rfl
        | (simp only [List.all_eq_true]
           rintro x hx
           rcases List.mem_map.mp hx with ⟨f, hf, rfl⟩
           rfl)
        | exact all_seqRun (nonMarkerB_pushLoop a env _)
            (nonMarkerB_tagCommitRun a v)

lemma nonMarker_pushPackage (a : ActionState) (env : PushEnv) (v n : String) :
    ∀ e ∈ (pushPackage a env v n).1, nonMarker e := by
  intro e he
  exact nonMarker_of_nonMarkerB
    (List.all_eq_true.mp (nonMarkerB_pushPackage a env v n) e he)

lemma publishCount_eq_zero {evs : List Event} (h : ∀ e ∈ evs, nonMarker e) :
    publishCount evs = 0 := by
  refine List.countP_eq_zero.mpr ?_
  intro e he
  simp [(h e he).1]

lemma foundLogged_eq_false {evs : List Event} (h : ∀ e ∈ evs, nonMarker e) :
    foundLogged evs = false := by
  refine List.any_eq_false.mpr ?_
  intro e he
  simp [(h e he).2]


lemma publishCount_append (l1 l2 : List Event) :
    publishCount (l1 ++ l2) = publishCount l1 + publishCount l2 :=
  List.countP_append _ _ _

lemma publishCount_cons (e : Event) (l : List Event) :
    publishCount (e :: l) = publishCount l + (if isPublishInvoke e then 1 else 0) :=
  List.countP_cons _ _ _

lemma publishCount_nil : publishCount [] = 0 := rfl

lemma foundLogged_append (l1 l2 : List Event) :
    foundLogged (l1 ++ l2) = (foundLogged l1 || foundLogged l2) :=
  List.any_append

lemma foundLogged_cons (e : Event) (l : List Event) :
    foundLogged (e :: l) = (isInfoFound e || foundLogged l) := rfl

lemma foundLogged_nil : foundLogged [] = false := rfl

lemma publishCount_pre (a : ActionState) (name url : String) :
    publishCount (checkPreEvents a name url) = 0 := by
  unfold checkPreEvents
  split_ifs <;> rfl

lemma foundLogged_pre (a : ActionState) (name url : String) :
    foundLogged (checkPreEvents a name url) = false := by
  unfold checkPreEvents
  split_ifs <;> rfl

lemma publishCount_pushPackage (a : ActionState) (env : PushEnv) (v n : String) :
    publishCount (pushPackage a env v n).1 = 0 :=
  publishCount_eq_zero (nonMarker_pushPackage a env v n)

lemma foundLogged_pushPackage (a : ActionState) (env : PushEnv) (v n : String) :
    foundLogged (pushPackage a env v n).1 = false :=
  foundLogged_eq_false (nonMarker_pushPackage a env v n)

/-- C1: for every existence-check response: on 200 with the resolved
version present in the body's `versions` collection the Publisher is not
invoked and the "found" message is logged; when the version is absent,
or on 404, the Publisher is invoked exactly once; the Publisher
invocation and the "found" log never both occur in one run. -/
theorem c1_existence_check_publish_or_found (a : ActionState) (env : CheckEnv) (versions : List String) :
    (env.response = CheckResponse.status200 versions →
       ((a.version ∈ versions →
           publishCount (checkForUpdate a env).1 = 0 ∧
           foundLogged (checkForUpdate a env).1 = true)
        ∧ (a.version ∉ versions →
           publishCount (checkForUpdate a env).1 = 1 ∧
           foundLogged (checkForUpdate a env).1 = false)))
  ∧ (env.response = CheckResponse.status404 →
       publishCount (checkForUpdate a env).1 = 1 ∧
       foundLogged (checkForUpdate a env).1 = false)
  ∧ (publishCount (checkForUpdate a env).1 = 0 ∨
       foundLogged (checkForUpdate a env).1 = false) := by
  obtain ⟨resp, penv⟩ := env
  unfold checkForUpdate
  cases resp with
  | status200 versions' =>
    dsimp only
    refine ⟨?_, ?_, ?_⟩
    · intro hv
      injection hv with hv'
      subst hv'
      constructor
      · intro hmem
        rw [if_neg (not_not_intro hmem)]
        simp [publishCount_append, publishCount_cons, publishCount_nil, publishCount_pre,
          foundLogged_append, foundLogged_cons, foundLogged_nil, foundLogged_pre,
          isPublishInvoke, isInfoFound]
      · intro hmem
        rw [if_pos hmem]
        simp [publishCount_append, publishCount_cons, publishCount_nil, publishCount_pre,
          publishCount_pushPackage, foundLogged_append, foundLogged_cons, foundLogged_nil,
          foundLogged_pre, foundLogged_pushPackage, isPublishInvoke, isInfoFound]
    · intro h
      simp at h
    · by_cases hmem : a.version ∈ versions'
      · rw [if_neg (not_not_intro hmem)]
        left
        simp [publishCount_append, publishCount_cons, publishCount_nil, publishCount_pre,
          isPublishInvoke]
      · rw [if_pos hmem]
        right
        simp [foundLogged_append, foundLogged_cons, foundLogged_nil, foundLogged_pre,
          foundLogged_pushPackage, isInfoFound]
  | status404 =>
    dsimp only
    refine ⟨?_, ?_, ?_⟩
    · intro h
      simp at h
    · intro h2
      constructor
      · simp [publishCount_append, publishCount_cons, publishCount_nil, publishCount_pre,
          publishCount_pushPackage, isPublishInvoke]
      · simp [foundLogged_append, foundLogged_cons, foundLogged_nil, foundLogged_pre,
          foundLogged_pushPackage, isInfoFound]
    · right
      simp [foundLogged_append, foundLogged_cons, foundLogged_nil, foundLogged_pre,
        foundLogged_pushPackage, isInfoFound]
  | other code msg =>
    dsimp only
    refine ⟨?_, ?_, ?_⟩
    · intro h
      simp at h
    · intro h
      simp at h
    · left
      simp [printErrorAndExit, publishCount_append, publishCount_cons, publishCount_nil,
        publishCount_pre, isPublishInvoke]
  | transportError m =>
    dsimp only
    refine ⟨?_, ?_, ?_⟩
    · intro h
      simp at h
    · intro h
      simp at h
    · left
      simp [printErrorAndExit, publishCount_append, publishCount_cons, publishCount_nil,
        publishCount_pre, isPublishInvoke]


/-- A fixed concrete action state for witnesses. -/
def baseState : ActionState := {
  projectFile := "proj.csproj", packageName := "", versionFile := "proj.csproj",
  version := "1.0.0", tagCommit := false, tagFormat := "v*", nugetKey := "secret",
  nugetSource := "https://api.nuget.org", includeSymbols := false, errorContinue := false,
  noBuild := false, signingCert := "", githubUser := "me",
  sourceName := "nuget.org", sourceType := some SourceType.NuGet }

/-- A fixed concrete push environment for witnesses. -/
def basePushEnv : PushEnv := {
  dirListing := ["stale.nupkg"], packedListing := ["proj.1.0.0.nupkg"],
  pushStdout := fun _ => "Your package was pushed.", symbolExists := fun _ => false,
  resolvePath := fun s => "/work/" ++ s }

/-- Witness for C1: version `1.0.0` already listed by the registry. -/
theorem c1_existence_check_publish_or_found_witness :
    publishCount (checkForUpdate baseState
        { response := CheckResponse.status200 ["1.0.0"], push := basePushEnv }).1 = 0 ∧
    foundLogged (checkForUpdate baseState
        { response := CheckResponse.status200 ["1.0.0"], push := basePushEnv }).1 = true :=
  ((c1_existence_check_publish_or_found baseState
      { response := CheckResponse.status200 ["1.0.0"], push := basePushEnv }
      ["1.0.0"]).1 rfl).1 (by decide)

/-- The HTTP GET of the existence check. -/
def isHttpGet : Event → Bool
  | Event.httpGet _ => true
  | _ => false

/-- Whether the existence checker was reached (its GET was issued). -/
def hasHttpGet (evs : List Event) : Bool := evs.any isHttpGet

/-- Whether any network or build/toolchain activity happened. -/
def hasNetOrBuild (evs : List Event) : Bool := evs.any isNetOrBuild

/-- C7: when the classified source type is NuGet-style and no push key
is configured, `_pushPackage` logs the found-new-version info and a
warning, and returns without deleting artifacts, building, packing,
signing, pushing or tagging; the run does not fail. -/
theorem c7_missing_key_short_circuit (a : ActionState) (env : PushEnv) (v n : String)
    (h1 : a.sourceType = some SourceType.NuGet) (h2 : a.nugetKey = "") :
    pushPackage a env v n =
      ([Event.info ("✨ found new version (" ++ v ++ ") of " ++ n),
        Event.warning "😢 NUGET_KEY not given"], Outcome.ok) := by
  unfold pushPackage
  rw [if_pos ⟨h1, h2⟩]
  rfl

/-- Witness for C7 at a concrete state with an empty key. -/
theorem c7_missing_key_short_circuit_witness :
    pushPackage { baseState with nugetKey := "" } basePushEnv "1.0.0" "proj" =
      ([Event.info "✨ found new version (1.0.0) of proj",
        Event.warning "😢 NUGET_KEY not given"], Outcome.ok) :=
  c7_missing_key_short_circuit { baseState with nugetKey := "" } basePushEnv
    "1.0.0" "proj" rfl rfl


/-- C2: whenever the existence checker runs (its HTTP GET is issued),
exactly one of \{an explicit version was supplied, a version was
extracted as capture group 1 of the pattern\} holds; when neither holds
the run throws before any network or build activity — with a message
extending "unable to extract version info" in the no-match case, and
"version file not found" when the version file is missing.  The
hypothesis `hre` is the spec's requirement that the configured pattern
contain at least one capture group. -/
theorem c2_version_resolution_invariant (a : ActionState) (env : RunEnv)
    (hre : ∀ s g, env.regexExec s = some g → (jsIndex g 1).isSome = true) :
    (hasHttpGet (run a env).1 = true →
       Xor' (a.version ≠ "")
         (a.version = "" ∧ ∃ g v, env.regexExec (env.readFile a.versionFile) = some g ∧
            jsIndex g 1 = some v))
  ∧ (a.version = "" → a.projectFile ≠ "" → env.fileExists a.projectFile = true →
       (a.versionFile = a.projectFile ∨ env.fileExists a.versionFile = true) →
       env.regexExec (env.readFile a.versionFile) = none →
       (run a env).2 = Outcome.thrown "unable to extract version info!" ∧
       "unable to extract version info".data.isPrefixOf "unable to extract version info!".data = true ∧
       hasNetOrBuild (run a env).1 = false)
  ∧ (a.version = "" → a.projectFile ≠ "" → env.fileExists a.projectFile = true →
       a.versionFile ≠ a.projectFile → env.fileExists a.versionFile = false →
       (run a env).2 = Outcome.thrown "version file not found" ∧
       hasNetOrBuild (run a env).1 = false) := by
  refine ⟨?_, ?_, ?_⟩
  · intro hget
    by_cases hv : a.version = ""
    · refine Or.inr ⟨⟨hv, ?_⟩, fun hA => hA hv⟩
      have h0 : ¬(a.version ≠ "" ∧ a.versionFile ≠ "") := fun hc => hc.1 hv
      unfold run at hget
      rw [if_neg h0] at hget
      by_cases hpf : a.projectFile = "" ∨ env.fileExists a.projectFile = false
      · rw [if_pos hpf] at hget
        simp [hasHttpGet, isHttpGet, printErrorAndExit] at hget
      · rw [if_neg hpf, if_pos hv] at hget
        by_cases hvf : a.versionFile ≠ a.projectFile ∧ env.fileExists a.versionFile = false
        · rw [if_pos hvf] at hget
          simp [hasHttpGet, isHttpGet, printErrorAndExit] at hget
        · rw [if_neg hvf] at hget
          rcases hx : env.regexExec (env.readFile a.versionFile) with _ | parsed
          · rw [hx] at hget
            simp [hasHttpGet, isHttpGet, printErrorAndExit] at hget
          · have hsome := hre _ _ hx
            rcases ho : jsIndex parsed 1 with _ | v
            · rw [ho] at hsome; cases hsome
            · exact ⟨parsed, v, rfl, ho⟩
    · exact Or.inl ⟨hv, fun hc => hv hc.1⟩
  · intro hv hp1 hp2 hvf hnone
    have h0 : ¬(a.version ≠ "" ∧ a.versionFile ≠ "") := fun hc => hc.1 hv
    have h1 : ¬(a.projectFile = "" ∨ env.fileExists a.projectFile = false) := by
      rintro (h | h)
      · exact hp1 h
      · rw [hp2] at h; cases h
    have h2 : ¬(a.versionFile ≠ a.projectFile ∧ env.fileExists a.versionFile = false) := by
      rintro ⟨hne, hf⟩
      rcases hvf with h | h
      · exact hne h
      · rw [h] at hf; cases hf
    unfold run
    rw [if_neg h0, if_neg h1, if_pos hv, if_neg h2, hnone]
    refine ⟨rfl, by decide, ?_⟩
    simp [hasNetOrBuild, isNetOrBuild, printErrorAndExit]
  · intro hv hp1 hp2 hne hnf
    have h0 : ¬(a.version ≠ "" ∧ a.versionFile ≠ "") := fun hc => hc.1 hv
    have h1 : ¬(a.projectFile = "" ∨ env.fileExists a.projectFile = false) := by
      rintro (h | h)
      · exact hp1 h
      · rw [hp2] at h; cases h
    unfold run
    rw [if_neg h0, if_neg h1, if_pos hv, if_pos ⟨hne, hnf⟩]
    refine ⟨rfl, ?_⟩
    simp [hasNetOrBuild, isNetOrBuild, printErrorAndExit]


/-- A concrete run environment whose pattern never matches. -/
def noMatchRunEnv : RunEnv := {
  fileExists := fun _ => true,
  readFile := fun _ => "no version here",
  regexExec := fun _ => none,
  regexShown := "/v([0-9.]+)/m",
  check := { response := CheckResponse.status404, push := basePushEnv } }

/-- Witness for C2: no static version and a non-matching pattern. -/
theorem c2_version_resolution_invariant_witness :
    (run { baseState with version := "" } noMatchRunEnv).2 =
      Outcome.thrown "unable to extract version info!" ∧
    "unable to extract version info".data.isPrefixOf
      "unable to extract version info!".data = true ∧
    hasNetOrBuild (run { baseState with version := "" } noMatchRunEnv).1 = false :=
  (c2_version_resolution_invariant { baseState with version := "" } noMatchRunEnv
      (fun _ _ h => nomatch h)).2.1 rfl (by decide) rfl (Or.inl rfl) rfl


lemma splitOnChar_unfold (c : Char) (l : List Char) :
    splitOnChar c l = (match l with
      | [] => [[]]
      | x :: xs =>
        if x = c then [] :: splitOnChar c xs
        else match splitOnChar c xs with
          | [] => [[x]]
          | y :: ys => (x :: y) :: ys) := by
  cases l <;> rfl

lemma splitOnChar_ne_nil (c : Char) (l : List Char) : splitOnChar c l ≠ [] := by
  induction l with
  | nil => simp [splitOnChar]
  | cons x xs ih =>
    rw [splitOnChar_unfold]
    dsimp only
    split_ifs with h
    · simp
    · rcases hr : splitOnChar c xs with _ | ⟨y, ys⟩
      · exact absurd hr ih
      · simp

lemma splitOnChar_append (c : Char) (A B : List Char) :
    splitOnChar c (A ++ c :: B) = splitOnChar c A ++ splitOnChar c B := by
  induction A with
  | nil =>
    rw [List.nil_append, splitOnChar_unfold c (c :: B)]
    dsimp only
    rw [if_pos rfl]
    rfl
  | cons x xs ih =>
    rw [List.cons_append, splitOnChar_unfold c (x :: (xs ++ c :: B)),
      splitOnChar_unfold c (x :: xs)]
    dsimp only
    by_cases hx : x = c
    · rw [if_pos hx, if_pos hx, ih, List.cons_append]
    · rw [if_neg hx, if_neg hx, ih]
      rcases hr : splitOnChar c xs with _ | ⟨y, ys⟩
      · exact absurd hr (splitOnChar_ne_nil c xs)
      · simp

lemma splitOnChar_of_not_mem (c : Char) (l : List Char) (h : c ∉ l) :
    splitOnChar c l = [l] := by
  induction l with
  | nil => rfl
  | cons x xs ih =>
    have hx : ¬x = c := fun he => h (he ▸ List.mem_cons_self x xs)
    have hxs : c ∉ xs := fun hc => h (List.mem_cons_of_mem x hc)
    rw [splitOnChar_unfold]
    dsimp only
    rw [if_neg hx, ih hxs]

lemma tokens_word (c : Char) (w rest : List Char) (hw : c ∉ w) :
    splitOnChar c (w ++ c :: rest) = w :: splitOnChar c rest := by
  rw [splitOnChar_append, splitOnChar_of_not_mem c w hw]
  rfl



lemma str_data_append (s t : String) : (s ++ t).data = s.data ++ t.data := rfl

lemma tokens_word2 (c : Char) (w1 w2 rest : List Char) (hw1 : c ∉ w1) (hw2 : c ∉ w2) :
    splitOnChar c (w1 ++ (w2 ++ c :: rest)) = (w1 ++ w2) :: splitOnChar c rest := by
  rw [← List.append_assoc]
  refine tokens_word c (w1 ++ w2) rest ?_
  intro hm
  rcases List.mem_append.mp hm with hm | hm
  · exact hw1 hm
  · exact hw2 hm

lemma tokens_last2 (c : Char) (w1 w2 : List Char) (hw1 : c ∉ w1) (hw2 : c ∉ w2) :
    splitOnChar c (w1 ++ w2) = [w1 ++ w2] := by
  refine splitOnChar_of_not_mem c (w1 ++ w2) ?_
  intro hm
  rcases List.mem_append.mp hm with hm | hm
  · exact hw1 hm
  · exact hw2 hm

/-- C6 (amended): after space-splitting, the push command's argument
vector omits the key pair exactly when the source type is GPR, and the
`-n` symbol-suppression token appears exactly when symbol inclusion is
disabled; the literal text `--skip-duplicate` is always appended, but it
forms its own argument only in the GPR case — otherwise the missing
space in the template glues it to the key, producing the single token
`<key>--skip-duplicate`. -/
theorem c6_push_command_tokens (a : ActionState) (nupkg : String)
    (h1 : ' ' ∉ a.sourceName.data) (h2 : ' ' ∉ a.nugetKey.data) (h3 : ' ' ∉ nupkg.data) :
    commandTokens (pushCmdOf a nupkg) =
      ["dotnet", "nuget", "push", nupkg, "-s", a.sourceName] ++
      (if a.sourceType = some SourceType.GPR then ["--skip-duplicate"]
       else ["-k", a.nugetKey ++ "--skip-duplicate"]) ++
      (if a.includeSymbols then [] else ["-n"]) := by
  unfold commandTokens pushCmdOf
  by_cases hg : a.sourceType = some SourceType.GPR <;> cases hs : a.includeSymbols
  · rw [if_neg (not_not_intro hg), if_pos hg]
    simp only [hs, str_data_append, List.append_assoc]
    show List.map (fun l => (⟨l⟩ : String))
        (splitOnChar ' ' ("dotnet".data ++ ' ' :: ("nuget".data ++ ' ' :: ("push".data ++
          ' ' :: (nupkg.data ++ ' ' :: ("-s".data ++ ' ' :: (a.sourceName.data ++
          ' ' :: ("--skip-duplicate".data ++ ' ' :: "-n".data)))))))) = _
    rw [tokens_word ' ' "dotnet".data _ (by decide),
      tokens_word ' ' "nuget".data _ (by decide),
      tokens_word ' ' "push".data _ (by decide),
      tokens_word ' ' nupkg.data _ h3,
      tokens_word ' ' "-s".data _ (by decide),
      tokens_word ' ' a.sourceName.data _ h1,
      tokens_word ' ' "--skip-duplicate".data _ (by decide),
      splitOnChar_of_not_mem ' ' "-n".data (by decide)]
    rfl
  · rw [if_neg (not_not_intro hg), if_pos hg]
    simp only [hs, str_data_append, List.append_assoc]
    show List.map (fun l => (⟨l⟩ : String))
        (splitOnChar ' ' ("dotnet".data ++ ' ' :: ("nuget".data ++ ' ' :: ("push".data ++
          ' ' :: (nupkg.data ++ ' ' :: ("-s".data ++ ' ' :: (a.sourceName.data ++
          ' ' :: "--skip-duplicate".data))))))) = _
    rw [tokens_word ' ' "dotnet".data _ (by decide),
      tokens_word ' ' "nuget".data _ (by decide),
      tokens_word ' ' "push".data _ (by decide),
      tokens_word ' ' nupkg.data _ h3,
      tokens_word ' ' "-s".data _ (by decide),
      tokens_word ' ' a.sourceName.data _ h1,
      splitOnChar_of_not_mem ' ' "--skip-duplicate".data (by decide)]
    rfl
  · rw [if_pos hg, if_neg hg]
    simp only [hs, str_data_append, List.append_assoc]
    show List.map (fun l => (⟨l⟩ : String))
        (splitOnChar ' ' ("dotnet".data ++ ' ' :: ("nuget".data ++ ' ' :: ("push".data ++
          ' ' :: (nupkg.data ++ ' ' :: ("-s".data ++ ' ' :: (a.sourceName.data ++
          ' ' :: ("-k".data ++ ' ' :: (a.nugetKey.data ++ ("--skip-duplicate".data ++
          ' ' :: "-n".data)))))))))) = _
    rw [tokens_word ' ' "dotnet".data _ (by decide),
      tokens_word ' ' "nuget".data _ (by decide),
      tokens_word ' ' "push".data _ (by decide),
      tokens_word ' ' nupkg.data _ h3,
      tokens_word ' ' "-s".data _ (by decide),
      tokens_word ' ' a.sourceName.data _ h1,
      tokens_word ' ' "-k".data _ (by decide),
      tokens_word2 ' ' a.nugetKey.data "--skip-duplicate".data "-n".data h2 (by decide),
      splitOnChar_of_not_mem ' ' "-n".data (by decide)]
    rfl
  · rw [if_pos hg, if_neg hg]
    simp only [hs, str_data_append, List.append_assoc]
    show List.map (fun l => (⟨l⟩ : String))
        (splitOnChar ' ' ("dotnet".data ++ ' ' :: ("nuget".data ++ ' ' :: ("push".data ++
          ' ' :: (nupkg.data ++ ' ' :: ("-s".data ++ ' ' :: (a.sourceName.data ++
          ' ' :: ("-k".data ++ ' ' :: (a.nugetKey.data ++ "--skip-duplicate".data))))))))) = _
    rw [tokens_word ' ' "dotnet".data _ (by decide),
      tokens_word ' ' "nuget".data _ (by decide),
      tokens_word ' ' "push".data _ (by decide),
      tokens_word ' ' nupkg.data _ h3,
      tokens_word ' ' "-s".data _ (by decide),
      tokens_word ' ' a.sourceName.data _ h1,
      tokens_word ' ' "-k".data _ (by decide),
      tokens_last2 ' ' a.nugetKey.data "--skip-duplicate".data h2 (by decide)]
    rfl


/-- Counterexample for C6 as stated: with a NuGet-style source the
argument vector contains the glued token `secret--skip-duplicate`, and
`--skip-duplicate` is not an argument of its own. -/
theorem c6_push_command_counterexample :
    commandTokens (pushCmdOf baseState "pkg.nupkg") =
      ["dotnet", "nuget", "push", "pkg.nupkg", "-s", "nuget.org", "-k",
        "secret--skip-duplicate", "-n"] ∧
    "--skip-duplicate" ∉ commandTokens (pushCmdOf baseState "pkg.nupkg") := by
  constructor
  · rfl
  · decide

/-- Witness for the amended C6 in the GPR case. -/
theorem c6_push_command_tokens_witness :
    commandTokens (pushCmdOf { baseState with sourceType := some SourceType.GPR }
        "pkg.nupkg") =
      ["dotnet", "nuget", "push", "pkg.nupkg", "-s", "nuget.org",
        "--skip-duplicate", "-n"] :=
  c6_push_command_tokens { baseState with sourceType := some SourceType.GPR }
    "pkg.nupkg" (by decide) (by decide) (by decide)

/-- A run environment in which no file exists. -/
def missingProjectEnv : RunEnv := { noMatchRunEnv with fileExists := fun _ => false }

/-- Counterexample for C3 as stated: with continue-on-error enabled and
the project file missing, the run does not complete with a warning — it
throws, because `run` calls the unconditional `_printErrorAndExit`, not
the `_printError` policy switch. -/
theorem c3_continue_on_error_counterexample :
    ({ baseState with errorContinue := true } : ActionState).errorContinue = true ∧
    (run { baseState with errorContinue := true } missingProjectEnv).2 =
      Outcome.thrown "Project file 'proj.csproj' not found" ∧
    (run { baseState with errorContinue := true } missingProjectEnv).2 ≠ Outcome.ok := by
  refine ⟨rfl, rfl, ?_⟩
  decide

/-- C3 (amended): failures on the main path are raised through the
unconditional fatal handler; the continue-on-error flag has no effect
there (`_printError` is never called).  A missing project file always
logs an error and throws — no warning is emitted — whatever the flag. -/
theorem c3_failures_always_fatal (a : ActionState) (env : RunEnv)
    (h : env.fileExists a.projectFile = false) :
    (run a env).2 = Outcome.thrown ("Project file '" ++ a.projectFile ++ "' not found") ∧
    Event.errorLog ("😭 " ++ ("Project file '" ++ a.projectFile ++ "' not found")) ∈
      (run a env).1 ∧
    (run a env).1.any (fun e => match e with | Event.warning _ => true | _ => false) =
      false := by
  unfold run
  rw [if_pos (Or.inr h)]
  refine ⟨rfl, ?_, ?_⟩
  · simp [printErrorAndExit]
  · split_ifs <;> simp [printErrorAndExit]

/-- Witness for the amended C3 with the flag enabled. -/
theorem c3_failures_always_fatal_witness :
    (run { baseState with errorContinue := true } missingProjectEnv).2 =
      Outcome.thrown ("Project file '" ++ "proj.csproj" ++ "' not found") :=
  (c3_failures_always_fatal { baseState with errorContinue := true }
    missingProjectEnv rfl).1

/-- Counterexample for C4 as stated: push output containing "error",
with continue-on-error enabled — the Publisher throws instead of
degrading to a warning, because line 134 calls `_printErrorAndExit`.
The raised message is also only the line's suffix from "error" on
("error: bad"), not the whole matching line ("an error: bad"). -/
theorem c4_push_error_scan_counterexample :
    ({ baseState with errorContinue := true } : ActionState).errorContinue = true ∧
    (pushPackage { baseState with errorContinue := true }
        { basePushEnv with pushStdout := fun _ => "an error: bad\nrest" }
        "1.0.0" "proj").2 = Outcome.thrown "error: bad" ∧
    (pushPackage { baseState with errorContinue := true }
        { basePushEnv with pushStdout := fun _ => "an error: bad\nrest" }
        "1.0.0" "proj").2 ≠ Outcome.ok := by
  refine ⟨rfl, by decide, by decide⟩

/-- C4 (amended): after a push whose captured stdout contains the
substring "error", the suffix of the first matching line starting at
that substring is raised through the unconditional fatal handler — the
run aborts regardless of the continue-on-error flag. -/
theorem c4_push_error_scan_fatal (a : ActionState) (env : PushEnv) (v n p m : String)
    (rest : List String)
    (hsc : ¬(a.sourceType = some SourceType.NuGet ∧ a.nugetKey = ""))
    (hp : ((env.packedListing.filter fun fn => strEndsWith fn "nupkg").filter
        fun q => strEndsWith q ".nupkg") = p :: rest)
    (hm : jsErrorScan (env.pushStdout p) = some m) :
    (pushPackage a env v n).2 = Outcome.thrown m ∧
    Event.errorLog ("😭 " ++ m) ∈ (pushPackage a env v n).1 := by
  have h2 : (pushOne a env p).2 = Outcome.thrown m := by
    unfold pushOne
    dsimp only
    rw [hm]
    rfl
  have h1 : Event.errorLog ("😭 " ++ m) ∈ (pushOne a env p).1 := by
    unfold pushOne
    dsimp only
    rw [hm]
    simp [printErrorAndExit]
  have hl2 : (pushLoop a env (p :: rest)).2 = Outcome.thrown m := by
    simp only [pushLoop, seqRun, h2]
  have hl1 : (pushLoop a env (p :: rest)).1 = (pushOne a env p).1 := by
    simp only [pushLoop, seqRun, h2]
  unfold pushPackage
  rw [if_neg hsc]
  dsimp only
  rw [hp]
  constructor
  · simp only [seqRun, hl2]
  · simp only [seqRun, hl2, hl1]
    simp [h1]

/-- Witness for the amended C4 with the flag enabled. -/
theorem c4_push_error_scan_fatal_witness :
    (pushPackage { baseState with errorContinue := true }
        { basePushEnv with pushStdout := fun _ => "an error: bad\nrest" }
        "1.0.0" "proj").2 = Outcome.thrown "error: bad" :=
  (c4_push_error_scan_fatal { baseState with errorContinue := true }
    { basePushEnv with pushStdout := fun _ => "an error: bad\nrest" }
    "1.0.0" "proj" "proj.1.0.0.nupkg" "error: bad" [] (by decide) (by decide)
    (by decide)).1

/-- A `dotnet nuget list source` output that already contains the
GPR-hosted registry URL. -/
def gprListing : String := "Registered Sources:\n  1.  https://nuget.pkg.github.com/me [Enabled]"

/-- A GPR-hosted registry URL. -/
def gprUrl : String := "https://nuget.pkg.github.com/me"

/-- Counterexample for C5 as stated: when the registry URL already
appears in the source listing, no classification is computed
(`sourceType` stays `undefined`), and the existence check then uses the
flat-container URL shape even though the URL is GPR-hosted. -/
theorem c5_classification_counterexample :
    sourceTypeOf gprListing gprUrl = none ∧
    sourceTypeOf gprListing gprUrl ≠ some SourceType.GPR ∧
    sourceTypeOf gprListing gprUrl ≠ some SourceType.NuGet ∧
    versionCheckUrlOf
      { baseState with nugetSource := gprUrl, sourceType := sourceTypeOf gprListing gprUrl }
      "pkg" = "https://nuget.pkg.github.com/me/v3-flatcontainer/pkg/index.json" := by
  refine ⟨by decide, by decide, by decide, by decide⟩

/-- C5 (amended): the registry URL is classified only when it is absent
from the toolchain's source listing; when present, `sourceType` remains
`undefined`, and every later operation then takes the not-GPR,
not-NuGet path: the version check uses the flat-container shape, the
push command embeds the key, and the missing-key short-circuit never
fires (the Publisher proceeds to its `NuGet Source:` log even with an
undefined classification). -/
theorem c5_classification_only_when_unlisted (listing src : String) (a : ActionState) :
    (strIncludes listing src = false →
       sourceTypeOf listing src =
         some (if strStartsWith src "https://nuget.pkg.github.com" then SourceType.GPR
               else SourceType.NuGet))
  ∧ (strIncludes listing src = true → sourceTypeOf listing src = none)
  ∧ (a.sourceType = none →
       (∀ n, versionCheckUrlOf a n =
          strToLower (a.nugetSource ++ "/v3-flatcontainer/" ++ n ++ "/index.json"))
       ∧ (∀ p, pushCmdOf a p =
          "dotnet nuget push " ++ p ++ " -s " ++ a.sourceName ++ " " ++
            ("-k " ++ a.nugetKey) ++ "--skip-duplicate" ++
            (if !a.includeSymbols then " -n" else ""))
       ∧ (∀ env v n, Event.info ("NuGet Source: " ++ a.nugetSource) ∈
            (pushPackage a env v n).1)) := by
  refine ⟨?_, ?_, ?_⟩
  · intro h
    unfold sourceTypeOf
    rw [if_pos h]
    split_ifs <;> rfl
  · intro h
    unfold sourceTypeOf
    rw [if_neg (by simp [h])]
  · intro hst
    refine ⟨?_, ?_, ?_⟩
    · intro n
      unfold versionCheckUrlOf
      rw [if_neg (by simp [hst])]
    · intro p
      unfold pushCmdOf
      rw [if_pos (by simp [hst])]
    · intro env v n
      unfold pushPackage
      rw [if_neg (by simp [hst])]
      simp

/-- Witness for the amended C5: unlisted GPR URL is classified; an
undefined classification yields the flat-container check URL. -/
theorem c5_classification_only_when_unlisted_witness :
    sourceTypeOf "" gprUrl =
      some (if strStartsWith gprUrl "https://nuget.pkg.github.com" then SourceType.GPR
            else SourceType.NuGet) ∧
    versionCheckUrlOf { baseState with sourceType := none } "pkg" =
      strToLower ("https://api.nuget.org" ++ "/v3-flatcontainer/" ++ "pkg" ++ "/index.json") :=
  ⟨(c5_classification_only_when_unlisted "" gprUrl
      { baseState with sourceType := none }).1 (by decide),
   ((c5_classification_only_when_unlisted "" gprUrl
      { baseState with sourceType := none }).2.2 rfl).1 "pkg"⟩

lemma findSplit_unfold (pat l : List Char) :
    findSplit pat l = (match l with
      | [] => if pat.isPrefixOf ([] : List Char) then some ([], []) else none
      | c :: cs =>
        if pat.isPrefixOf (c :: cs) then some ([], (c :: cs).drop pat.length)
        else (findSplit pat cs).map fun p => (c :: p.1, p.2)) := by
  cases l <;> rfl

lemma findSplit_single (c : Char) (A B : List Char) (h : c ∉ A) :
    findSplit [c] (A ++ c :: B) = some (A, B) := by
  induction A with
  | nil =>
    rw [List.nil_append, findSplit_unfold]
    dsimp only
    rw [if_pos (by simp [List.isPrefixOf])]
    rfl
  | cons x xs ih =>
    have hx : ¬x = c := fun he => h (he ▸ List.mem_cons_self x xs)
    have hxs : c ∉ xs := fun hm => h (List.mem_cons_of_mem x hm)
    have hno : ¬([c].isPrefixOf (x :: (xs ++ c :: B)) = true) := by
      simp [List.isPrefixOf]
      exact fun he => hx he.symm
    rw [List.cons_append, findSplit_unfold]
    dsimp only
    rw [if_neg hno, ih hxs]
    rfl

lemma getSubstitution_no_dollar (m b a V : List Char) (h : '$' ∉ V) :
    getSubstitution m b a V = V := by
  induction V with
  | nil => rfl
  | cons x xs ih =>
    have hx : ¬x = '$' := fun he => h (he ▸ List.mem_cons_self x xs)
    have hxs : '$' ∉ xs := fun hm => h (List.mem_cons_of_mem x hm)
    unfold getSubstitution
    rw [if_neg hx, ih hxs]

/-- Counterexample for C8 as stated: JavaScript string `replace`
interprets dollar escapes in the replacement, so the version string `$$`
is not substituted literally: template `v*` yields `v$`, not `v$$`. -/
theorem c8_tag_substitution_counterexample :
    tagOf "v*" "$$" = "v$" ∧ tagOf "v*" "$$" ≠ "v$$" := by
  refine ⟨by decide, by decide⟩

/-- C8 (amended): for a version string containing no dollar character,
tag computation replaces exactly the first `*` of the template with the
literal version and leaves every other character unchanged; a version
containing `$`-escape sequences is instead subject to JavaScript
replacement-pattern interpretation. -/
theorem c8_tag_substitution (A B V : List Char) (hA : '*' ∉ A) (hV : '$' ∉ V) :
    tagOf ⟨A ++ '*' :: B⟩ ⟨V⟩ = ⟨A ++ V ++ B⟩ := by
  unfold tagOf jsReplaceFirst
  have hf : findSplit ("*" : String).data (String.data ⟨A ++ '*' :: B⟩) = some (A, B) :=
    findSplit_single '*' A B hA
  rw [hf]
  dsimp only
  rw [getSubstitution_no_dollar ("*" : String).data A B V hV]

/-- Witness for the amended C8: template `v*` with version `1.2.3`. -/
theorem c8_tag_substitution_witness : tagOf "v*" "1.2.3" = "v1.2.3" :=
  c8_tag_substitution "v".data [] "1.2.3".data (by decide) (by decide)

lemma joinChar_splitOnChar (c : Char) (l : List Char) :
    joinChar c (splitOnChar c l) = l := by
  induction l with
  | nil => rfl
  | cons x xs ih =>
    rw [splitOnChar_unfold]
    dsimp only
    rcases hr : splitOnChar c xs with _ | ⟨y, ys⟩
    · exact absurd hr (splitOnChar_ne_nil c xs)
    · rw [hr] at ih
      by_cases hx : x = c
      · rw [if_pos hx, hx]
        cases ys with
        | nil => simp_all [joinChar]
        | cons z zs => simp_all [joinChar]
      · rw [if_neg hx]
        dsimp only
        cases ys with
        | nil => simp_all [joinChar]
        | cons z zs =>
          simp only [joinChar] at ih ⊢
          rw [← ih]
          simp

/-- C9: with no configured package name, and a project-file base name of
the form `A.E` with `E` dot-free, the derived default package name is
`A`: only the final extension of the final path segment is removed. -/
theorem c9_default_package_name (p : String) (A E : List Char)
    (hA : (pathBasename p).data = A ++ '.' :: E) (hE : '.' ∉ E) :
    resolvedPackageName "" p = ⟨A⟩ := by
  unfold resolvedPackageName
  rw [if_pos rfl]
  unfold defaultPackageName
  rw [hA, splitOnChar_append, splitOnChar_of_not_mem '.' E hE, List.dropLast_concat,
    joinChar_splitOnChar]

/-- Witness for C9 at the spec's two examples. -/
theorem c9_default_package_name_witness :
    resolvedPackageName "" "src/MyLib.csproj" = "MyLib" ∧
    resolvedPackageName "" "My.Lib.csproj" = "My.Lib" :=
  ⟨c9_default_package_name "src/MyLib.csproj" "MyLib".data "csproj".data
      (by decide) (by decide),
   c9_default_package_name "My.Lib.csproj" "My.Lib".data "csproj".data
      (by decide) (by decide)⟩

/-- The action state on a project file with no extension. -/
def makefileState : ActionState := { baseState with projectFile := "Makefile" }

/-- C10: a project-file base name with no dot yields the empty default
package name, and the existence check then proceeds (the GET is
issued) with an empty package-name segment in the URL — the run does
not fail at name derivation. -/
theorem c10_no_extension_empty_name :
    resolvedPackageName "" "Makefile" = "" ∧
    versionCheckUrlOf makefileState "" =
      "https://api.nuget.org/v3-flatcontainer//index.json" ∧
    Event.httpGet "https://api.nuget.org/v3-flatcontainer//index.json" ∈
      (checkForUpdate makefileState
        { response := CheckResponse.status404, push := basePushEnv }).1 ∧
    (checkForUpdate makefileState
        { response := CheckResponse.status404, push := basePushEnv }).2 = Outcome.ok := by
  refine ⟨rfl, by decide, by decide, rfl⟩

end PublishNuget
